import Mathlib

set_option maxHeartbeats 1000000

namespace DataPager

/-! Shallow embedding of the `data-pager` Rust crate.

Machine integers (`u64`) are modelled as `Nat` with explicit wrapping
(`% 2 ^ 64`) at the operations where Rust release-mode overflow can occur;
Rust debug builds panic at those same points, which is noted where relevant.
Byte buffers are `List Nat` (each entry one byte), strings are Lean `String`
(a list of unicode scalar values, matching Rust `String`/`str`).
-/

/-- Wrapping 64-bit unsigned addition (`u64` addition, Rust release-mode
wrapping semantics). -/
def add64 (a b : Nat) : Nat := (a + b) % 2 ^ 64

/-- Wrapping 64-bit unsigned subtraction (`u64` subtraction, Rust
release-mode wrapping semantics; a debug build panics where this wraps). -/
def sub64 (a b : Nat) : Nat := (a + 2 ^ 64 - b) % 2 ^ 64

/-- The error enum of `src/error.rs`. The nested `source` payloads
(`base64::DecodeSliceError`, `Utf8Error`, `ParseIntError`) carry no
information used by the crate, so only the displayed data is kept:
`base64Decode` records the offending token, `invalidNumber` the decoded
text, `invalidPageSize` the (post-normalization) size. -/
inductive Error where
  | invalidPageSize (size : Nat)
  | invalidSource
  | base64Decode (s : String)
  | invalidUtf8
  | invalidNumber (s : String)
deriving DecidableEq

deriving instance DecidableEq for Except

/-! ### Base64 codec (the `base64` crate engine `URL_SAFE_NO_PAD`)

URL-safe alphabet `A-Z a-z 0-9 - _`, no padding; decoding rejects
characters outside the alphabet, inputs of length `≡ 1 (mod 4)`, and
non-zero trailing bits in the final partial chunk (the engine's default
`decode_allow_trailing_bits = false`). -/

/-- Value `0..63` to URL-safe base64 alphabet character. -/
def b64EncodeChar (n : Nat) : Char :=
  if n < 26 then Char.ofNat (65 + n)
  else if n < 52 then Char.ofNat (97 + (n - 26))
  else if n < 62 then Char.ofNat (48 + (n - 52))
  else if n = 62 then Char.ofNat 45
  else Char.ofNat 95

/-- URL-safe base64 alphabet character back to its value; `none` for a
character outside the alphabet (including `=` padding, which the
`NO_PAD` engine rejects). -/
def b64DecodeChar (c : Char) : Option Nat :=
  if 65 ≤ c.toNat ∧ c.toNat ≤ 90 then some (c.toNat - 65)
  else if 97 ≤ c.toNat ∧ c.toNat ≤ 122 then some (c.toNat - 97 + 26)
  else if 48 ≤ c.toNat ∧ c.toNat ≤ 57 then some (c.toNat - 48 + 52)
  else if c.toNat = 45 then some 62
  else if c.toNat = 95 then some 63
  else none

/-- Base64-encode a byte sequence: 3 bytes become 4 characters; a final
byte becomes 2 characters and a final pair 3 characters (no padding). -/
def b64EncodeList : List Nat → List Char
  | b1 :: b2 :: b3 :: rest =>
    b64EncodeChar (b1 / 4) :: b64EncodeChar (b1 % 4 * 16 + b2 / 16) ::
      b64EncodeChar (b2 % 16 * 4 + b3 / 64) :: b64EncodeChar (b3 % 64) ::
      b64EncodeList rest
  | [b1, b2] => [b64EncodeChar (b1 / 4), b64EncodeChar (b1 % 4 * 16 + b2 / 16),
      b64EncodeChar (b2 % 16 * 4)]
  | [b1] => [b64EncodeChar (b1 / 4), b64EncodeChar (b1 % 4 * 16)]
  | [] => []

/-- Map every character of a token to its sextet value; fails on the first
character outside the alphabet. -/
def sextetsOf : List Char → Option (List Nat)
  | [] => some []
  | c :: cs =>
    match b64DecodeChar c, sextetsOf cs with
    | some s, some ss => some (s :: ss)
    | _, _ => none

/-- Reassemble bytes from sextets: full chunks of 4 give 3 bytes; a final
chunk of 3 gives 2 bytes and of 2 gives 1 byte, each rejected when its
trailing bits are non-zero; a final chunk of 1 is an invalid length. -/
def sextetsToBytes : List Nat → Option (List Nat)
  | s1 :: s2 :: s3 :: s4 :: rest =>
    match sextetsToBytes rest with
    | some bs =>
      some ((s1 * 4 + s2 / 16) :: (s2 % 16 * 16 + s3 / 4) :: (s3 % 4 * 64 + s4) :: bs)
    | none => none
  | [s1, s2, s3] =>
    if s3 % 4 = 0 then some [s1 * 4 + s2 / 16, s2 % 16 * 16 + s3 / 4] else none
  | [s1, s2] => if s2 % 16 = 0 then some [s1 * 4 + s2 / 16] else none
  | [_] => none
  | [] => some []

/-- Full base64 decode of a token's characters, without the output-buffer
size check. -/
def b64DecodeFull (cs : List Char) : Option (List Nat) :=
  match sextetsOf cs with
  | some ss => sextetsToBytes ss
  | none => none

/-- The `base64` crate's conservative decoded-length estimate used by
`decode_slice`: `(len / 4 + (len % 4 > 0)) * 3`. -/
def b64SizeEstimate (len : Nat) : Nat :=
  (len / 4 + (if len % 4 = 0 then 0 else 1)) * 3

/-- `b64_encode` of `src/utils.rs`: `URL_SAFE_NO_PAD.encode(input)`. -/
def b64_encode (bytes : List Nat) : String := String.mk (b64EncodeList bytes)

/-- `b64_decode` of `src/utils.rs`: `URL_SAFE_NO_PAD.decode_slice(s, output)`
with a 32-byte output buffer; both a decode failure and an output buffer
deemed too small by the conservative estimate are surfaced as the crate's
`Error::Base64Decode` (recording the token). Tokens whose characters are
all in the (ASCII) alphabet have byte length equal to character count, and
any token containing a non-ASCII character fails the alphabet check, so
character count is used for the estimate. -/
def b64_decode (s : String) : Except Error (List Nat) :=
  if b64SizeEstimate s.length > 32 then .error (.base64Decode s)
  else
    match b64DecodeFull s.data with
    | some bytes => .ok bytes
    | none => .error (.base64Decode s)

/-! ### Decimal rendering and parsing (`u64::to_string` / `str::parse::<u64>`) -/

/-- Decimal digit value to its ASCII character. -/
def digitChar (d : Nat) : Char := Char.ofNat (48 + d)

/-- Most-significant-first decimal digits of `n`, by repeated division;
`fuel` bounds the recursion (any `fuel ≥ n` is exact). -/
def decChars : Nat → Nat → List Char
  | 0, _ => []
  | fuel + 1, n =>
    if n < 10 then [digitChar n]
    else decChars fuel (n / 10) ++ [digitChar (n % 10)]

/-- Rust `u64::to_string()`: the base-10 digit string of the value. -/
def u64ToString (n : Nat) : String := String.mk (decChars (n + 1) n)

/-- Rust `str::parse::<u64>()`: an optional leading `+`, then one or more
ASCII decimal digits, value below `2 ^ 64`; `none` models every
`ParseIntError` (empty, invalid digit, overflow). -/
def parseU64 (s : String) : Option Nat :=
  match s.data with
  | [] => none
  | c :: rest =>
    let ds := if c = '+' then rest else c :: rest
    if ds = [] then none
    else if ds.all Char.isDigit then
      let v := ds.foldl (fun a ch => a * 10 + (ch.toNat - 48)) 0
      if v < 2 ^ 64 then some v else none
    else none

/-! ### UTF-8 (`str::from_utf8` validation, `str` bytes) -/

/-- UTF-8 encoding of one unicode scalar value (Rust `String` bytes). -/
def utf8EncodeChar (c : Char) : List Nat :=
  let n := c.toNat
  if n < 128 then [n]
  else if n < 2048 then [192 + n / 64, 128 + n % 64]
  else if n < 65536 then [224 + n / 4096, 128 + n / 64 % 64, 128 + n % 64]
  else [240 + n / 262144, 128 + n / 4096 % 64, 128 + n / 64 % 64, 128 + n % 64]

/-- UTF-8 encoding of a character sequence. -/
def utf8EncodeList : List Char → List Nat
  | [] => []
  | c :: cs => utf8EncodeChar c ++ utf8EncodeList cs

/-- Valid UTF-8 continuation byte (`0x80..0xBF`). -/
def contOk (b : Nat) : Bool := decide (128 ≤ b ∧ b < 192)

/-- Valid first continuation byte of a 3-byte sequence, given its lead
byte: the narrowed ranges exclude overlong forms (lead `0xE0`) and
surrogates (lead `0xED`). -/
def mid3Ok (b c1 : Nat) : Bool :=
  if b = 224 then decide (160 ≤ c1 ∧ c1 < 192)
  else if b = 237 then decide (128 ≤ c1 ∧ c1 < 160)
  else contOk c1

/-- Valid first continuation byte of a 4-byte sequence, given its lead
byte: the narrowed ranges exclude overlong forms (lead `0xF0`) and values
above `U+10FFFF` (lead `0xF4`). -/
def mid4Ok (b c1 : Nat) : Bool :=
  if b = 240 then decide (144 ≤ c1 ∧ c1 < 192)
  else if b = 244 then decide (128 ≤ c1 ∧ c1 < 144)
  else contOk c1

/-- Decode one UTF-8 scalar value given the lead byte and the following
bytes: the code point and the number of continuation bytes consumed, or
`none` on a malformed sequence (RFC 3629: truncated sequences, bad
continuation bytes, overlong forms, surrogates, values above `U+10FFFF`;
lead bytes `0x80..0xC1` and `0xF5..0xFF` are always invalid). -/
def utf8Step (b : Nat) (rest : List Nat) : Option (Nat × Nat) :=
  if b < 128 then some (b, 0)
  else if b < 194 then none
  else if b < 224 then
    match rest with
    | c1 :: _ => if contOk c1 then some ((b - 192) * 64 + (c1 - 128), 1) else none
    | [] => none
  else if b < 240 then
    match rest with
    | c1 :: c2 :: _ =>
      if mid3Ok b c1 && contOk c2 then
        some ((b - 224) * 4096 + (c1 - 128) * 64 + (c2 - 128), 2)
      else none
    | _ => none
  else if b < 245 then
    match rest with
    | c1 :: c2 :: c3 :: _ =>
      if mid4Ok b c1 && contOk c2 && contOk c3 then
        some ((b - 240) * 262144 + (c1 - 128) * 4096 + (c2 - 128) * 64 + (c3 - 128), 3)
      else none
    | _ => none
  else none

/-- Decode a UTF-8 byte sequence scalar by scalar; `fuel` bounds the
recursion (any `fuel ≥` the byte count is exact, since every step consumes
the lead byte). -/
def utf8DecodeAux : Nat → List Nat → Option (List Char)
  | _, [] => some []
  | 0, _ :: _ => none
  | fuel + 1, b :: rest =>
    match utf8Step b rest with
    | some (v, k) => (utf8DecodeAux fuel (rest.drop k)).map (fun cs => Char.ofNat v :: cs)
    | none => none

/-- Strict UTF-8 decoding of a byte sequence, as validated by Rust
`str::from_utf8`. -/
def utf8Decode (bytes : List Nat) : Option (List Char) :=
  utf8DecodeAux bytes.length bytes

/-! ### The cursor codec (`src/utils.rs`) -/

/-- `encode_u64`: render the offset in decimal, base64-encode the digit
bytes (total: encoding never fails). -/
def encode_u64 (input : Nat) : String :=
  b64_encode (utf8EncodeList (u64ToString input).data)

/-- `decode_u64`: base64-decode into the 32-byte buffer, interpret the
bytes as UTF-8, parse the text as a `u64`; UTF-8 failure is
`Error::InvalidUtf8`, parse failure is `Error::InvalidNumber` recording
the decoded text. -/
def decode_u64 (s : String) : Except Error Nat :=
  match b64_decode s with
  | .error e => .error e
  | .ok bytes =>
    match utf8Decode bytes with
    | none => .error .invalidUtf8
    | some cs =>
      match parseU64 (String.mk cs) with
      | some v => .ok v
      | none => .error (.invalidNumber (String.mk cs))

/-! ### The generic paginator (`src/pager.rs`) -/

/-- `PageInfo` of `src/pager.rs`: which page (optional `u64` offset cursor)
and how big (`u64` page size). -/
structure PageInfo where
  cursor : Option Nat
  page_size : Nat
deriving DecidableEq

/-- `Pager` of `src/pager.rs`: offsets of the adjacent pages (`total` is
never computed). -/
structure Pager where
  prev : Option Nat
  next : Option Nat
  total : Option Nat
deriving DecidableEq

/-- `PageInfo::get_pager` of `src/pager.rs`. The mutable `Container` is
modelled as a `List` (its `pop` removes the tail element, as both the
`Vec` and `VecDeque` impls do) and the function returns the pager together
with the collection after the side effect. `max(0, v - self.page_size)`
is the source's `u64` expression: the subtraction wraps (release) or
panics (debug) when `v < page_size`, and `max 0 _` is the identity. -/
def PageInfo.get_pager (self : PageInfo) (data : List α) : Pager × List α :=
  let prev : Option Nat :=
    match self.cursor with
    | some v => if v > 0 then some (max 0 (sub64 v self.page_size)) else none
    | none => none
  let has_next := self.page_size < data.length
  if has_next then
    ({ prev := prev, next := some (add64 (self.cursor.getD 0) self.page_size),
       total := none }, data.dropLast)
  else
    ({ prev := prev, next := none, total := none }, data)

/-- `PageInfo::next_page` of `src/pager.rs`. -/
def PageInfo.next_page (self : PageInfo) (pager : Pager) : Option PageInfo :=
  if pager.next.isSome then
    some { cursor := pager.next, page_size := self.page_size }
  else none

/-- `PageInfo::prev_page` of `src/pager.rs`. -/
def PageInfo.prev_page (self : PageInfo) (pager : Pager) : Option PageInfo :=
  if pager.prev.isSome then
    some { cursor := pager.prev, page_size := self.page_size }
  else none

/-! ### The SQL query builder (`src/sql.rs`) -/

/-- `MAX_PAGE_SIZE` of `src/sql.rs`. -/
def MAX_PAGE_SIZE : Nat := 100

/-- `SqlQuery` of `src/sql.rs` (`Cow<str>` fields become `String`). -/
structure SqlQuery where
  source : String
  projection : List String
  filter : Option String
  order : Option String
  cursor : Option String
  page_size : Nat
deriving DecidableEq

/-- Separator join, as `itertools`' `join(sep)`. -/
def joinSep (sep : String) : List String → String
  | [] => ""
  | [x] => x
  | x :: xs => x ++ sep ++ joinSep sep xs

/-- `SqlQuery::get_cursor`: decode the cursor token, silently turning any
decode error into "no cursor". -/
def SqlQuery.get_cursor (self : SqlQuery) : Option Nat :=
  match self.cursor with
  | some c => (decode_u64 c).toOption
  | none => none

/-- `SqlQuery::projection` (the private method): `*` for an empty
projection list, else the column expressions joined with `", "`. -/
def SqlQuery.projectionStr (self : SqlQuery) : String :=
  if self.projection = [] then "*" else joinSep ", " self.projection

/-- `SqlQuery::to_sql`: fragments in fixed order, empty fragments dropped,
joined with single spaces; `limit = page_size + 1 + (cursor present)`
(`u64` additions), `offset` the decoded cursor or 0. -/
def SqlQuery.toSql (self : SqlQuery) : String :=
  let middle_plus : Nat := if self.cursor.isNone then 0 else 1
  let limit := add64 (add64 self.page_size 1) middle_plus
  let offset := self.get_cursor.getD 0
  let whereClause :=
    match self.filter with
    | some f => "WHERE " ++ f
    | none => ""
  let orderClause :=
    match self.order with
    | some o => "ORDER BY " ++ o
    | none => ""
  joinSep " "
    (["SELECT", self.projectionStr, "FROM", self.source, whereClause,
      orderClause, "LIMIT", u64ToString limit, "OFFSET",
      u64ToString offset].filter (fun s => s ≠ ""))

/-- `SqlQuery::page_info`. -/
def SqlQuery.pageInfo (self : SqlQuery) : PageInfo :=
  { cursor := self.get_cursor, page_size := self.page_size }

/-- `SqlQuery::get_pager`. -/
def SqlQuery.get_pager (self : SqlQuery) (data : List α) : Pager × List α :=
  self.pageInfo.get_pager data

/-- `SqlQuery::next_page`: delegate to `PageInfo::next_page`, then rebuild
the query with the new cursor re-encoded. -/
def SqlQuery.next_page (self : SqlQuery) (pager : Pager) : Option SqlQuery :=
  let page_info := self.pageInfo
  match page_info.next_page pager with
  | some pi =>
    some { source := self.source, projection := self.projection,
           filter := self.filter, order := self.order,
           cursor := pi.cursor.map (fun c => encode_u64 c),
           page_size := pi.page_size }
  | none => none

/-- `SqlQuery::validate`: `ensure!` the page size is strictly between 0 and
`MAX_PAGE_SIZE`, then `ensure!` the source is non-empty. -/
def SqlQuery.validate (self : SqlQuery) : Except Error Unit :=
  if self.page_size > 0 ∧ self.page_size < MAX_PAGE_SIZE then
    if self.source ≠ "" then .ok () else .error .invalidSource
  else .error (.invalidPageSize self.page_size)

/-- `SqlQuery::normalize`: page size 0 becomes the default 10, a page size
above `MAX_PAGE_SIZE` is clamped to `MAX_PAGE_SIZE`. -/
def SqlQuery.normalize (self : SqlQuery) : SqlQuery :=
  if self.page_size = 0 then { self with page_size := 10 }
  else if self.page_size > MAX_PAGE_SIZE then { self with page_size := MAX_PAGE_SIZE }
  else self

/-- `SqlQueryBuilder::build`: build the raw struct (the builder fills
defaulted fields; modelled by taking the completed struct as input), then
normalize, then validate. -/
def SqlQueryBuilder.build (q : SqlQuery) : Except Error SqlQuery :=
  let data := q.normalize
  match data.validate with
  | .ok _ => .ok data
  | .error e => .error e

/-- The `SELECT .. FROM .. [WHERE ..] [ORDER BY ..]` prefix of the
rendered SQL (everything before the `LIMIT` clause), factored out of
`SqlQuery.toSql` for reasoning about the tail. -/
def sqlPre (q : SqlQuery) : String :=
  joinSep " "
    ((["SELECT", q.projectionStr, "FROM", q.source,
      (match q.filter with | some f => "WHERE " ++ f | none => ""),
      (match q.order with | some o => "ORDER BY " ++ o | none => "")]).filter
      (fun s => s ≠ ""))

/-- The rendering template as the spec states it (spec, section 4.3 and
section 6): fixed clause order, WHERE/ORDER BY omitted entirely when the
field is absent, fragments joined by single spaces. Written from the
spec's words, to be compared with `SqlQuery.toSql` from the source. -/
def toSqlSpecText (q : SqlQuery) : String :=
  "SELECT " ++ q.projectionStr ++ " FROM " ++ q.source ++
    (match q.filter with | some f => " WHERE " ++ f | none => "") ++
    (match q.order with | some o => " ORDER BY " ++ o | none => "") ++
    " LIMIT " ++ u64ToString (add64 (add64 q.page_size 1) (if q.cursor.isNone then 0 else 1)) ++
    " OFFSET " ++ u64ToString (q.get_cursor.getD 0)

/-! ### Lemmas: decimal rendering and parsing -/

lemma digitChar_toNat : ∀ d, d < 10 → (digitChar d).toNat = 48 + d := by decide

lemma digitChar_isDigit : ∀ d, d < 10 → (digitChar d).isDigit = true := by decide

/-- The digit string produced by `decChars` folds back to its value, is
all ASCII digits, and is non-empty (for positive fuel at least the value). -/
lemma decChars_spec : ∀ fuel n, n ≤ fuel → 0 < fuel →
    (decChars fuel n).foldl (fun a c => a * 10 + (c.toNat - 48)) 0 = n ∧
    (∀ c ∈ decChars fuel n, c.isDigit = true ∧ c.toNat < 128) ∧
    decChars fuel n ≠ [] := by
  intro fuel
  induction fuel with
  | zero => intro n h h0; exact absurd h0 (by omega)
  | succ fuel ih =>
    intro n hle _
    by_cases h10 : n < 10
    · simp only [decChars, if_pos h10]
      refine ⟨?_, ?_, by simp⟩
      · simp only [List.foldl_cons, List.foldl_nil]
        rw [digitChar_toNat n h10]
        omega
      · intro c hc
        simp only [List.mem_singleton] at hc
        subst hc
        exact ⟨digitChar_isDigit n h10, by rw [digitChar_toNat n h10]; omega⟩
    · have hrec := ih (n / 10) (by omega) (by omega)
      obtain ⟨hfold, hdig, hne⟩ := hrec
      simp only [decChars, if_neg h10]
      refine ⟨?_, ?_, by simp⟩
      · rw [List.foldl_append, hfold]
        simp only [List.foldl_cons, List.foldl_nil]
        rw [digitChar_toNat (n % 10) (by omega)]
        omega
      · intro c hc
        rcases List.mem_append.mp hc with h | h
        · exact hdig c h
        · simp only [List.mem_singleton] at h
          subst h
          refine ⟨digitChar_isDigit _ (by omega), ?_⟩
          rw [digitChar_toNat _ (by omega)]
          omega

/-- A value below `10 ^ k` renders to at most `k` digits. -/
lemma decChars_length : ∀ fuel n k, 0 < k → n < 10 ^ k →
    (decChars fuel n).length ≤ k := by
  intro fuel
  induction fuel with
  | zero => intro n k _ _; simp [decChars]
  | succ fuel ih =>
    intro n k hk hnk
    by_cases h10 : n < 10
    · simp only [decChars, if_pos h10, List.length_singleton]
      omega
    · simp only [decChars, if_neg h10, List.length_append, List.length_singleton]
      have hk2 : 2 ≤ k := by
        by_contra hcon
        have hk1 : k = 1 := by omega
        subst hk1
        simp only [pow_one] at hnk
        omega
      have hmul : 10 ^ (k - 1) * 10 = 10 ^ k := by
        rw [← pow_succ]
        congr 1
        omega
      have hdiv : n / 10 < 10 ^ (k - 1) := by
        rw [Nat.div_lt_iff_lt_mul (by omega)]
        omega
      have := ih (n / 10) (k - 1) (by omega) hdiv
      omega

lemma u64ToString_spec (n : Nat) :
    (u64ToString n).data.foldl (fun a c => a * 10 + (c.toNat - 48)) 0 = n ∧
    (∀ c ∈ (u64ToString n).data, c.isDigit = true ∧ c.toNat < 128) ∧
    (u64ToString n).data ≠ [] :=
  decChars_spec (n + 1) n (by omega) (by omega)

lemma u64ToString_ne_empty (n : Nat) : u64ToString n ≠ "" := by
  intro h
  apply (u64ToString_spec n).2.2
  rw [h]

/-- Parsing inverts decimal rendering for every `u64` value. -/
lemma parseU64_u64ToString (n : Nat) (h : n < 2 ^ 64) :
    parseU64 (u64ToString n) = some n := by
  obtain ⟨hfold, hdig, hne⟩ := u64ToString_spec n
  rcases hd : (u64ToString n).data with _ | ⟨c, rest⟩
  · exact absurd hd hne
  · have hcdig : c.isDigit = true :=
      (hdig c (by rw [hd]; exact List.mem_cons_self c rest)).1
    have hplus : ¬(c = '+') := by
      intro hc
      subst hc
      exact absurd hcdig (by decide)
    have hall : (c :: rest).all Char.isDigit = true := by
      rw [List.all_eq_true]
      intro x hx
      exact (hdig x (by rw [hd]; exact hx)).1
    rw [hd] at hfold
    unfold parseU64
    rw [hd]
    simp [hplus, hall, hfold]
    omega

/-! ### Lemmas: UTF-8 -/

lemma char_ofNat_toNat (c : Char) : Char.ofNat c.toNat = c := by
  have hv : c.toNat.isValidChar := c.valid
  unfold Char.ofNat
  rw [dif_pos hv]
  rcases c with ⟨⟨⟨⟨v, hlt⟩⟩⟩, hval⟩
  rfl

lemma utf8EncodeList_ascii : ∀ cs : List Char, (∀ c ∈ cs, c.toNat < 128) →
    utf8EncodeList cs = cs.map Char.toNat := by
  intro cs
  induction cs with
  | nil => intro _; rfl
  | cons c rest ih =>
    intro h
    have hc : c.toNat < 128 := h c (List.mem_cons_self c rest)
    simp only [utf8EncodeList, utf8EncodeChar, if_pos hc, List.map_cons]
    rw [ih (fun x hx => h x (List.mem_cons_of_mem _ hx))]
    rfl

lemma utf8DecodeAux_ascii : ∀ fuel (cs : List Char), cs.length ≤ fuel →
    (∀ c ∈ cs, c.toNat < 128) →
    utf8DecodeAux fuel (cs.map Char.toNat) = some cs := by
  intro fuel
  induction fuel with
  | zero =>
    intro cs hlen _
    have : cs = [] := List.eq_nil_of_length_eq_zero (by omega)
    subst this
    rfl
  | succ fuel ih =>
    intro cs hlen h
    rcases cs with _ | ⟨c, rest⟩
    · rfl
    · have hc : c.toNat < 128 := h c (List.mem_cons_self c rest)
      simp only [List.map_cons, utf8DecodeAux, utf8Step, if_pos hc]
      rw [List.drop_zero,
        ih rest (by simp only [List.length_cons] at hlen; omega)
          (fun x hx => h x (List.mem_cons_of_mem _ hx))]
      simp [char_ofNat_toNat]

lemma utf8Decode_ascii (cs : List Char) (h : ∀ c ∈ cs, c.toNat < 128) :
    utf8Decode (cs.map Char.toNat) = some cs := by
  unfold utf8Decode
  exact utf8DecodeAux_ascii _ cs (by simp) h

/-! ### Lemmas: base64 -/

lemma b64_dec_enc : ∀ n, n < 64 → b64DecodeChar (b64EncodeChar n) = some n := by decide

/-- Decoding inverts encoding for arbitrary byte sequences. -/
lemma b64_roundtrip : ∀ bytes : List Nat, (∀ b ∈ bytes, b < 256) →
    b64DecodeFull (b64EncodeList bytes) = some bytes := by
  have main : ∀ k (bytes : List Nat), bytes.length ≤ k → (∀ b ∈ bytes, b < 256) →
      b64DecodeFull (b64EncodeList bytes) = some bytes := by
    intro k
    induction k with
    | zero =>
      intro bytes hlen _
      have : bytes = [] := List.eq_nil_of_length_eq_zero (by omega)
      subst this
      rfl
    | succ k ih =>
      intro bytes hlen hb
      rcases bytes with _ | ⟨b1, _ | ⟨b2, _ | ⟨b3, rest⟩⟩⟩
      · rfl
      · have h1 : b1 < 256 := hb b1 (by simp)
        simp only [b64EncodeList, b64DecodeFull, sextetsOf]
        rw [b64_dec_enc (b1 / 4) (by omega), b64_dec_enc (b1 % 4 * 16) (by omega)]
        simp only [sextetsToBytes]
        rw [if_pos (by omega : b1 % 4 * 16 % 16 = 0)]
        have : b1 / 4 * 4 + b1 % 4 * 16 / 16 = b1 := by omega
        rw [this]
      · have h1 : b1 < 256 := hb b1 (by simp)
        have h2 : b2 < 256 := hb b2 (by simp)
        simp only [b64EncodeList, b64DecodeFull, sextetsOf]
        rw [b64_dec_enc (b1 / 4) (by omega), b64_dec_enc (b1 % 4 * 16 + b2 / 16) (by omega),
          b64_dec_enc (b2 % 16 * 4) (by omega)]
        simp only [sextetsToBytes]
        rw [if_pos (by omega : b2 % 16 * 4 % 4 = 0)]
        have e1 : b1 / 4 * 4 + (b1 % 4 * 16 + b2 / 16) / 16 = b1 := by omega
        have e2 : (b1 % 4 * 16 + b2 / 16) % 16 * 16 + b2 % 16 * 4 / 4 = b2 := by omega
        rw [e1, e2]
      · have h1 : b1 < 256 := hb b1 (by simp)
        have h2 : b2 < 256 := hb b2 (by simp)
        have h3 : b3 < 256 := hb b3 (by simp)
        have hrest := ih rest (by simp only [List.length_cons] at hlen; omega)
          (fun x hx => hb x (by simp [hx]))
        simp only [b64EncodeList, b64DecodeFull, sextetsOf]
        rw [b64_dec_enc (b1 / 4) (by omega), b64_dec_enc (b1 % 4 * 16 + b2 / 16) (by omega),
          b64_dec_enc (b2 % 16 * 4 + b3 / 64) (by omega), b64_dec_enc (b3 % 64) (by omega)]
        unfold b64DecodeFull at hrest
        rcases hso : sextetsOf (b64EncodeList rest) with _ | ss
        · rw [hso] at hrest
          exact absurd hrest (by simp)
        · rw [hso] at hrest
          have hrest2 : sextetsToBytes ss = some rest := hrest
          simp only [sextetsToBytes]
          rw [hrest2]
          have e1 : b1 / 4 * 4 + (b1 % 4 * 16 + b2 / 16) / 16 = b1 := by omega
          have e2 : (b1 % 4 * 16 + b2 / 16) % 16 * 16 + (b2 % 16 * 4 + b3 / 64) / 4 = b2 := by
            omega
          have e3 : (b2 % 16 * 4 + b3 / 64) % 4 * 64 + b3 % 64 = b3 := by omega
          rw [e1, e2, e3]
  intro bytes
  exact main bytes.length bytes (le_refl _)

/-- The encoded token of `k` bytes has at most `(k + 2) * 4 / 3` characters. -/
lemma b64EncodeList_length : ∀ bytes : List Nat,
    (b64EncodeList bytes).length ≤ (bytes.length + 2) * 4 / 3 := by
  have main : ∀ k (bytes : List Nat), bytes.length ≤ k →
      (b64EncodeList bytes).length ≤ (bytes.length + 2) * 4 / 3 := by
    intro k
    induction k with
    | zero =>
      intro bytes hlen
      have : bytes = [] := List.eq_nil_of_length_eq_zero (by omega)
      subst this
      simp [b64EncodeList]
    | succ k ih =>
      intro bytes hlen
      rcases bytes with _ | ⟨b1, _ | ⟨b2, _ | ⟨b3, rest⟩⟩⟩
      · simp [b64EncodeList]
      · simp [b64EncodeList]
      · simp [b64EncodeList]
      · have hrest := ih rest (by simp only [List.length_cons] at hlen; omega)
        simp only [b64EncodeList, List.length_cons]
        omega
  intro bytes
  exact main bytes.length bytes (le_refl _)

/-! ### Lemmas: the cursor codec round-trip -/

/-- Shared core of the claims about the codec: decoding inverts encoding
for every `u64` offset. -/
lemma decode_encode_aux (o : Nat) (h : o < 2 ^ 64) :
    decode_u64 (encode_u64 o) = .ok o := by
  obtain ⟨hfold, hdig, hne⟩ := u64ToString_spec o
  have hascii : ∀ c ∈ (u64ToString o).data, c.toNat < 128 := fun c hc => (hdig c hc).2
  have hlen20 : (u64ToString o).data.length ≤ 20 := by
    have h20 : o < 10 ^ 20 := lt_of_lt_of_le h (by norm_num)
    exact decChars_length (o + 1) o 20 (by omega) h20
  have henc : utf8EncodeList (u64ToString o).data =
      (u64ToString o).data.map Char.toNat := utf8EncodeList_ascii _ hascii
  have hbytes : ∀ b ∈ (u64ToString o).data.map Char.toNat, b < 256 := by
    intro b hb
    rcases List.mem_map.mp hb with ⟨c, hc, rfl⟩
    exact lt_trans (hascii c hc) (by norm_num)
  have hrt := b64_roundtrip ((u64ToString o).data.map Char.toNat) hbytes
  have hel : (b64EncodeList ((u64ToString o).data.map Char.toNat)).length ≤ 29 := by
    have hb := b64EncodeList_length ((u64ToString o).data.map Char.toNat)
    have hm : ((u64ToString o).data.map Char.toNat).length = (u64ToString o).data.length :=
      List.length_map _ _
    omega
  have hmklen : (String.mk (b64EncodeList ((u64ToString o).data.map Char.toNat))).length =
      (b64EncodeList ((u64ToString o).data.map Char.toNat)).length := rfl
  have hest : ¬(b64SizeEstimate
      (String.mk (b64EncodeList ((u64ToString o).data.map Char.toNat))).length > 32) := by
    rw [hmklen]
    unfold b64SizeEstimate
    set L := (b64EncodeList ((u64ToString o).data.map Char.toNat)).length with hL
    by_cases hz : L % 4 = 0
    · rw [if_pos hz]
      omega
    · rw [if_neg hz]
      omega
  have hbd : b64_decode (String.mk (b64EncodeList ((u64ToString o).data.map Char.toNat))) =
      .ok ((u64ToString o).data.map Char.toNat) := by
    unfold b64_decode
    rw [if_neg hest]
    rw [show (String.mk (b64EncodeList ((u64ToString o).data.map Char.toNat))).data =
      b64EncodeList ((u64ToString o).data.map Char.toNat) from rfl, hrt]
  have hstr : String.mk (u64ToString o).data = u64ToString o := rfl
  unfold encode_u64 b64_encode
  rw [henc]
  unfold decode_u64
  simp only [hbd, utf8Decode_ascii _ hascii, hstr, parseU64_u64ToString o h]

/-! ### Lemmas: SQL rendering -/

lemma strAppend_assoc (a b c : String) : a ++ b ++ c = a ++ (b ++ c) := by
  apply String.ext
  simp [String.data_append]

lemma joinSep_space_append (xs ys : List String) (hx : xs ≠ []) (hy : ys ≠ []) :
    joinSep " " (xs ++ ys) = joinSep " " xs ++ " " ++ joinSep " " ys := by
  induction xs with
  | nil => exact absurd rfl hx
  | cons x xs ih =>
    rcases xs with _ | ⟨x2, xs2⟩
    · rcases ys with _ | ⟨y, ys⟩
      · exact absurd rfl hy
      · rfl
    · have ihh := ih (by simp)
      simp only [List.cons_append] at ihh ⊢
      have harm : joinSep " " (x :: x2 :: (xs2 ++ ys)) =
          x ++ " " ++ joinSep " " (x2 :: (xs2 ++ ys)) := rfl
      have harm2 : joinSep " " (x :: x2 :: xs2) = x ++ " " ++ joinSep " " (x2 :: xs2) := rfl
      rw [harm, ihh, harm2]
      apply String.ext
      simp [String.data_append]

lemma join_tail_eq (pre l f : String) :
    pre ++ " " ++ joinSep " " ["LIMIT", l, "OFFSET", f] =
      pre ++ " LIMIT " ++ l ++ " OFFSET " ++ f := by
  apply String.ext
  have d1 : (" " : String).data = [' '] := rfl
  have d2 : ("LIMIT" : String).data = ['L', 'I', 'M', 'I', 'T'] := rfl
  have d3 : ("OFFSET" : String).data = ['O', 'F', 'F', 'S', 'E', 'T'] := rfl
  have d4 : (" LIMIT " : String).data = [' ', 'L', 'I', 'M', 'I', 'T', ' '] := rfl
  have d5 : (" OFFSET " : String).data = [' ', 'O', 'F', 'F', 'S', 'E', 'T', ' '] := rfl
  simp only [joinSep, String.data_append, d1, d2, d3, d4, d5, List.append_assoc,
    List.cons_append, List.nil_append]

lemma filter_tail4 (l f : String) (hl : l ≠ "") (hf : f ≠ "") :
    (["LIMIT", l, "OFFSET", f]).filter (fun s => s ≠ "") = ["LIMIT", l, "OFFSET", f] := by
  simp [hl, hf]

/-- `toSql` decomposed as its prefix followed by the always-present
`LIMIT`/`OFFSET` tail. -/
lemma toSql_split (q : SqlQuery) :
    q.toSql = sqlPre q ++ " LIMIT " ++
      u64ToString (add64 (add64 q.page_size 1) (if q.cursor.isNone then 0 else 1)) ++
      " OFFSET " ++ u64ToString (q.get_cursor.getD 0) := by
  unfold SqlQuery.toSql
  simp only []
  rw [show (["SELECT", q.projectionStr, "FROM", q.source,
      (match q.filter with | some f => "WHERE " ++ f | none => ""),
      (match q.order with | some o => "ORDER BY " ++ o | none => ""), "LIMIT",
      u64ToString (add64 (add64 q.page_size 1) (if q.cursor.isNone then 0 else 1)),
      "OFFSET", u64ToString (q.get_cursor.getD 0)] : List String) =
      ["SELECT", q.projectionStr, "FROM", q.source,
        (match q.filter with | some f => "WHERE " ++ f | none => ""),
        (match q.order with | some o => "ORDER BY " ++ o | none => "")] ++
      ["LIMIT", u64ToString (add64 (add64 q.page_size 1) (if q.cursor.isNone then 0 else 1)),
        "OFFSET", u64ToString (q.get_cursor.getD 0)] from rfl]
  rw [List.filter_append,
    filter_tail4 _ _ (u64ToString_ne_empty _) (u64ToString_ne_empty _)]
  have hfront : (["SELECT", q.projectionStr, "FROM", q.source,
      (match q.filter with | some f => "WHERE " ++ f | none => ""),
      (match q.order with | some o => "ORDER BY " ++ o | none => "")]).filter
      (fun s => s ≠ "") =
      "SELECT" :: (([q.projectionStr, "FROM", q.source,
        (match q.filter with | some f => "WHERE " ++ f | none => ""),
        (match q.order with | some o => "ORDER BY " ++ o | none => "")]).filter
        (fun s => s ≠ "")) := List.filter_cons_of_pos (by decide)
  rw [joinSep_space_append _ _ (by rw [hfront]; simp) (by simp), join_tail_eq]
  rfl

lemma add64_small (a b : Nat) (h : a + b < 2 ^ 64) : add64 a b = a + b := by
  unfold add64
  rw [Nat.mod_eq_of_lt h]

/-- Any requested page size of 100 or more is clamped to 100 by
normalization and then rejected by validation (which checks the page size
before the source), reporting exactly 100. -/
lemma build_oversized_aux (q : SqlQuery) (h100 : 100 ≤ q.page_size) :
    SqlQueryBuilder.build q = .error (.invalidPageSize 100) := by
  by_cases hc : q.page_size > 100
  · have hn : q.normalize = { q with page_size := 100 } := by
      unfold SqlQuery.normalize MAX_PAGE_SIZE
      rw [if_neg (by omega), if_pos hc]
    have hv : ({ q with page_size := 100 } : SqlQuery).validate =
        .error (.invalidPageSize 100) := by
      unfold SqlQuery.validate MAX_PAGE_SIZE
      rw [if_neg (by simp)]
    unfold SqlQueryBuilder.build
    rw [hn]
    simp only [hv]
  · have h100e : q.page_size = 100 := by omega
    have hn : q.normalize = q := by
      unfold SqlQuery.normalize MAX_PAGE_SIZE
      rw [if_neg (by omega), if_neg hc]
    have hv : q.validate = .error (.invalidPageSize 100) := by
      unfold SqlQuery.validate MAX_PAGE_SIZE
      rw [if_neg (by omega), h100e]
    unfold SqlQueryBuilder.build
    rw [hn]
    simp only [hv]

/-! ### Claim theorems -/

/-- Claim C1: `get_pager` reports a next page iff the collection's length
exceeds `page_size`; if so it removes exactly the tail element and sets
`next = (cursor or 0) + page_size` (a `u64` addition); otherwise `next` is
absent and the collection is unchanged. -/
theorem get_pager_next_lookahead {α : Type} (p : PageInfo) (data : List α) :
    ((p.get_pager data).1.next.isSome ↔ p.page_size < data.length) ∧
    (p.page_size < data.length →
      (p.get_pager data).2 = data.dropLast ∧
      (p.get_pager data).1.next = some ((p.cursor.getD 0 + p.page_size) % 2 ^ 64)) ∧
    (data.length ≤ p.page_size →
      (p.get_pager data).1.next = none ∧ (p.get_pager data).2 = data) := by
  unfold PageInfo.get_pager
  by_cases h : p.page_size < data.length
  · simp only [if_pos h]
    refine ⟨?_, ?_, ?_⟩
    · simp [h]
    · intro _
      simp [add64]
    · intro hle
      exact absurd h (by omega)
  · simp only [if_neg h]
    refine ⟨?_, ?_, ?_⟩
    · simp [h]
    · intro hlt
      exact absurd hlt h
    · intro _
      simp

/-- Witness for C1: at `cursor = 10, page_size = 10` with 11 fetched rows,
the tail row is popped and `next = 20`. -/
theorem get_pager_next_lookahead_witness :
    ((({ cursor := some 10, page_size := 10 } : PageInfo).get_pager (List.range 11)).2 =
      (List.range 11).dropLast) ∧
    ((({ cursor := some 10, page_size := 10 } : PageInfo).get_pager (List.range 11)).1.next =
      some 20) := by
  obtain ⟨h1, h2⟩ :=
    (get_pager_next_lookahead ({ cursor := some 10, page_size := 10 } : PageInfo)
      (List.range 11)).2.1 (by decide)
  refine ⟨h1, ?_⟩
  rw [h2]
  decide

/-- Claim C2 (code bug): the spec says `prev = max(0, cursor - page_size)`
clamped to zero without arithmetic failure, but the code's
`max(0, v - self.page_size)` is a `u64` expression: at
`cursor = 5, page_size = 10` the subtraction wraps (release mode) to
`2^64 - 5` instead of clamping to 0 (a debug build panics there). -/
theorem get_pager_prev_underflow :
    ((({ cursor := some 5, page_size := 10 } : PageInfo).get_pager ([] : List Nat)).1.prev =
      some (2 ^ 64 - 5)) ∧
    ¬((({ cursor := some 5, page_size := 10 } : PageInfo).get_pager ([] : List Nat)).1.prev =
      some 0) := by decide

/-- Claim C5: `build` normalizes (0 becomes 10, values above 100 clamp to
100) and then validates, so any requested size up to 99 (with a non-empty
source) succeeds, while any requested size of 100 or more fails with
`InvalidPageSize` reporting exactly 100. -/
theorem build_page_size_normalization (q : SqlQuery) :
    (q.source ≠ "" → q.page_size ≤ 99 →
      SqlQueryBuilder.build q = .ok q.normalize ∧
      q.normalize.page_size = (if q.page_size = 0 then 10 else q.page_size)) ∧
    (100 ≤ q.page_size → SqlQueryBuilder.build q = .error (.invalidPageSize 100)) := by
  constructor
  · intro hs hps
    by_cases h0 : q.page_size = 0
    · have hn : q.normalize = { q with page_size := 10 } := by
        unfold SqlQuery.normalize
        rw [if_pos h0]
      have hv : ({ q with page_size := 10 } : SqlQuery).validate = .ok () := by
        unfold SqlQuery.validate MAX_PAGE_SIZE
        rw [if_pos (by constructor <;> simp), if_pos hs]
      constructor
      · unfold SqlQueryBuilder.build
        rw [hn]
        simp only [hv]
      · rw [hn, if_pos h0]
    · have hn : q.normalize = q := by
        unfold SqlQuery.normalize MAX_PAGE_SIZE
        rw [if_neg h0, if_neg (by omega)]
      have hv : q.validate = .ok () := by
        unfold SqlQuery.validate MAX_PAGE_SIZE
        rw [if_pos (by omega), if_pos hs]
      constructor
      · unfold SqlQueryBuilder.build
        rw [hn]
        simp only [hv]
      · rw [hn, if_neg h0]
  · intro h100
    exact build_oversized_aux q h100

/-- Witness for C5: a requested page size of 0 normalizes to 10 and the
build succeeds. -/
theorem build_page_size_normalization_witness :
    SqlQueryBuilder.build { source := "users", projection := [], filter := none,
                            order := none, cursor := none, page_size := 0 } =
      .ok (SqlQuery.normalize { source := "users", projection := [], filter := none,
                                order := none, cursor := none, page_size := 0 }) ∧
    (SqlQuery.normalize { source := "users", projection := [], filter := none,
                          order := none, cursor := none, page_size := 0 }).page_size = 10 := by
  obtain ⟨h1, h2⟩ :=
    (build_page_size_normalization { source := "users", projection := [], filter := none,
                                     order := none, cursor := none, page_size := 0 }).1
      (by decide) (by decide)
  exact ⟨h1, by rw [h2]; decide⟩

/-- Counterexample for C6: with an empty source and a requested page size
of 150, the build fails with `InvalidPageSize{100}` rather than
`InvalidSource`, because the page-size check runs first. -/
theorem build_empty_source_counterexample :
    SqlQueryBuilder.build { source := "", projection := [], filter := none, order := none,
                            cursor := none, page_size := 150 } =
      .error (.invalidPageSize 100) ∧
    SqlQueryBuilder.build { source := "", projection := [], filter := none, order := none,
                            cursor := none, page_size := 150 } ≠
      .error .invalidSource := by decide

/-- Claim C6 as amended: building with an empty source always fails; the
error is `InvalidSource` when the requested page size is at most 99 (page
size 0 being first normalized to 10), and `InvalidPageSize{100}` when it
is 100 or more, because validation checks the page size before the
source. -/
theorem build_empty_source_amended (q : SqlQuery) (h : q.source = "") :
    SqlQueryBuilder.build q =
      .error (if q.page_size ≤ 99 then Error.invalidSource else Error.invalidPageSize 100) := by
  by_cases hps : q.page_size ≤ 99
  · rw [if_pos hps]
    by_cases h0 : q.page_size = 0
    · have hn : q.normalize = { q with page_size := 10 } := by
        unfold SqlQuery.normalize
        rw [if_pos h0]
      have hv : ({ q with page_size := 10 } : SqlQuery).validate = .error .invalidSource := by
        unfold SqlQuery.validate MAX_PAGE_SIZE
        rw [if_pos (by constructor <;> simp), if_neg (by simp [h])]
      unfold SqlQueryBuilder.build
      rw [hn]
      simp only [hv]
    · have hn : q.normalize = q := by
        unfold SqlQuery.normalize MAX_PAGE_SIZE
        rw [if_neg h0, if_neg (by omega)]
      have hv : q.validate = .error .invalidSource := by
        unfold SqlQuery.validate MAX_PAGE_SIZE
        rw [if_pos (by omega), if_neg (by simp [h])]
      unfold SqlQueryBuilder.build
      rw [hn]
      simp only [hv]
  · rw [if_neg hps]
    exact build_oversized_aux q (by omega)

/-- Witness for C6 (amended): empty source with default page size 0 fails
with `InvalidSource`. -/
theorem build_empty_source_amended_witness :
    SqlQueryBuilder.build { source := "", projection := [], filter := none, order := none,
                            cursor := none, page_size := 0 } =
      .error (if (0 : Nat) ≤ 99 then Error.invalidSource else Error.invalidPageSize 100) :=
  build_empty_source_amended { source := "", projection := [], filter := none, order := none,
                               cursor := none, page_size := 0 } rfl

lemma sqlPre_eq (q : SqlQuery) (hs : q.source ≠ "") (hp : q.projectionStr ≠ "") :
    sqlPre q = "SELECT " ++ q.projectionStr ++ " FROM " ++ q.source ++
      (match q.filter with | some f => " WHERE " ++ f | none => "") ++
      (match q.order with | some o => " ORDER BY " ++ o | none => "") := by
  have hW : ∀ f : String, ("WHERE " ++ f) ≠ "" := by
    intro f hcon
    have h2 := congrArg String.data hcon
    rw [String.data_append,
      show ("WHERE " : String).data = ['W', 'H', 'E', 'R', 'E', ' '] from rfl] at h2
    simp at h2
  have hO : ∀ o : String, ("ORDER BY " ++ o) ≠ "" := by
    intro o hcon
    have h2 := congrArg String.data hcon
    rw [String.data_append,
      show ("ORDER BY " : String).data = ['O', 'R', 'D', 'E', 'R', ' ', 'B', 'Y', ' ']
        from rfl] at h2
    simp at h2
  have dsp : (" " : String).data = [' '] := rfl
  have dSEL : ("SELECT" : String).data = ['S', 'E', 'L', 'E', 'C', 'T'] := rfl
  have dSELs : ("SELECT " : String).data = ['S', 'E', 'L', 'E', 'C', 'T', ' '] := rfl
  have dFROM : ("FROM" : String).data = ['F', 'R', 'O', 'M'] := rfl
  have dFROMs : (" FROM " : String).data = [' ', 'F', 'R', 'O', 'M', ' '] := rfl
  have dW1 : ("WHERE " : String).data = ['W', 'H', 'E', 'R', 'E', ' '] := rfl
  have dW2 : (" WHERE " : String).data = [' ', 'W', 'H', 'E', 'R', 'E', ' '] := rfl
  have dO1 : ("ORDER BY " : String).data = ['O', 'R', 'D', 'E', 'R', ' ', 'B', 'Y', ' '] := rfl
  have dO2 : (" ORDER BY " : String).data =
    [' ', 'O', 'R', 'D', 'E', 'R', ' ', 'B', 'Y', ' '] := rfl
  have demp : ("" : String).data = [] := rfl
  unfold sqlPre
  rcases hf : q.filter with _ | f <;> rcases ho : q.order with _ | o
  · simp only [hf, ho, List.filter]
    simp [hp, hs, joinSep]
    apply String.ext
    simp [String.data_append, dsp, dSEL, dSELs, dFROM, dFROMs, demp]
  · simp only [hf, ho, List.filter]
    simp [hp, hs, hO o, joinSep]
    apply String.ext
    simp [String.data_append, dsp, dSEL, dSELs, dFROM, dFROMs, dO1, dO2, demp]
  · simp only [hf, ho, List.filter]
    simp [hp, hs, hW f, joinSep]
    apply String.ext
    simp [String.data_append, dsp, dSEL, dSELs, dFROM, dFROMs, dW1, dW2, demp]
  · simp only [hf, ho, List.filter]
    simp [hp, hs, hW f, hO o, joinSep]
    apply String.ext
    simp [String.data_append, dsp, dSEL, dSELs, dFROM, dFROMs, dW1, dW2, dO1, dO2, demp]

/-- Claim C3: the LIMIT value rendered by `to_sql` is `page_size + 1` when
the cursor field is absent and `page_size + 2` when a cursor is present
(whether or not it decodes). -/
theorem to_sql_limit (q : SqlQuery) (h : q.page_size + 2 < 2 ^ 64) :
    (q.cursor = none → ∃ pre, q.toSql =
      pre ++ " LIMIT " ++ u64ToString (q.page_size + 1) ++ " OFFSET " ++
        u64ToString (q.get_cursor.getD 0)) ∧
    (q.cursor ≠ none → ∃ pre, q.toSql =
      pre ++ " LIMIT " ++ u64ToString (q.page_size + 2) ++ " OFFSET " ++
        u64ToString (q.get_cursor.getD 0)) := by
  constructor
  · intro hc
    refine ⟨sqlPre q, ?_⟩
    rw [toSql_split q, hc]
    have harith : add64 (add64 q.page_size 1)
        (if (none : Option String).isNone then 0 else 1) = q.page_size + 1 := by
      rw [show (if (none : Option String).isNone = true then (0 : Nat) else 1) = 0 from rfl,
        add64_small q.page_size 1 (by omega), add64_small (q.page_size + 1) 0 (by omega)]
    rw [harith]
  · intro hc
    refine ⟨sqlPre q, ?_⟩
    rw [toSql_split q]
    have hiso : q.cursor.isNone = false := by
      rcases hcc : q.cursor with _ | t
      · exact absurd hcc hc
      · rfl
    have harith : add64 (add64 q.page_size 1)
        (if q.cursor.isNone then 0 else 1) = q.page_size + 2 := by
      rw [hiso, show (if (false = true) then (0 : Nat) else 1) = 1 from rfl,
        add64_small q.page_size 1 (by omega), add64_small (q.page_size + 1) 1 (by omega)]
    rw [harith]

/-- Witness for C3: the cursor-less `users` query renders LIMIT 11. -/
theorem to_sql_limit_witness :
    ∃ pre, SqlQuery.toSql { source := "users", projection := [], filter := none,
                            order := none, cursor := none, page_size := 10 } =
      pre ++ " LIMIT " ++ u64ToString (10 + 1) ++ " OFFSET " ++
        u64ToString ((SqlQuery.get_cursor { source := "users", projection := [],
                                            filter := none, order := none, cursor := none,
                                            page_size := 10 }).getD 0) :=
  (to_sql_limit { source := "users", projection := [], filter := none,
                  order := none, cursor := none, page_size := 10 } (by norm_num)).1 rfl

/-- Counterexample for C7: a query with an undecodable cursor token does
not behave observably like the cursor-less query: the rendered LIMIT is 12
versus 11 (cursor presence, not decodability, adds the extra row). -/
theorem invalid_cursor_not_identical :
    decode_u64 "!!!" = .error (.base64Decode "!!!") ∧
    SqlQuery.toSql { source := "users", projection := [], filter := none, order := none,
                     cursor := some "!!!", page_size := 10 } =
      "SELECT * FROM users LIMIT 12 OFFSET 0" ∧
    SqlQuery.toSql { source := "users", projection := [], filter := none, order := none,
                     cursor := none, page_size := 10 } =
      "SELECT * FROM users LIMIT 11 OFFSET 0" ∧
    SqlQuery.toSql { source := "users", projection := [], filter := none, order := none,
                     cursor := some "!!!", page_size := 10 } ≠
      SqlQuery.toSql { source := "users", projection := [], filter := none, order := none,
                       cursor := none, page_size := 10 } := by decide

/-- Claim C7 as amended: an undecodable cursor token is swallowed:
`get_cursor` is absent, the page info and hence `get_pager` agree with the
cursor-less query, and `to_sql` renders OFFSET 0; but `to_sql` is not
identical to the cursor-less query: it renders LIMIT `page_size + 2`
(cursor presence, not decodability, decides the lookahead surplus) where
the cursor-less query renders `page_size + 1`, the rest of the rendered
text being the same. -/
theorem invalid_cursor_swallowed_amended (q : SqlQuery) (t : String) (hc : q.cursor = some t)
    (he : ∃ e, decode_u64 t = .error e) (hps : q.page_size + 2 < 2 ^ 64) :
    q.get_cursor = none ∧
    q.pageInfo = SqlQuery.pageInfo { q with cursor := none } ∧
    (∀ data : List Nat, q.get_pager data = SqlQuery.get_pager { q with cursor := none } data) ∧
    (∃ pre,
      q.toSql = pre ++ " LIMIT " ++ u64ToString (q.page_size + 2) ++ " OFFSET " ++
        u64ToString 0 ∧
      SqlQuery.toSql { q with cursor := none } = pre ++ " LIMIT " ++
        u64ToString (q.page_size + 1) ++ " OFFSET " ++ u64ToString 0) := by
  obtain ⟨e, he⟩ := he
  have hgc : q.get_cursor = none := by
    unfold SqlQuery.get_cursor
    rw [hc]
    show (decode_u64 t).toOption = none
    rw [he]
    rfl
  have hgc2 : SqlQuery.get_cursor { q with cursor := none } = none := rfl
  have hpi : q.pageInfo = SqlQuery.pageInfo { q with cursor := none } := by
    unfold SqlQuery.pageInfo
    rw [hgc, hgc2]
  refine ⟨hgc, hpi, ?_, ?_⟩
  · intro data
    unfold SqlQuery.get_pager
    rw [hpi]
  · refine ⟨sqlPre q, ?_, ?_⟩
    · rw [toSql_split q, hgc, hc]
      have harith : add64 (add64 q.page_size 1)
          (if (some t : Option String).isNone then 0 else 1) = q.page_size + 2 := by
        rw [show (if ((some t : Option String).isNone = true) then (0 : Nat) else 1) = 1
            from rfl,
          add64_small q.page_size 1 (by omega), add64_small (q.page_size + 1) 1 (by omega)]
      rw [harith]
      rfl
    · rw [toSql_split { q with cursor := none }]
      have hsp : sqlPre { q with cursor := none } = sqlPre q := rfl
      have hps2 : ({ q with cursor := none } : SqlQuery).page_size = q.page_size := rfl
      have harith : add64 (add64 ({ q with cursor := none } : SqlQuery).page_size 1)
          (if ({ q with cursor := none } : SqlQuery).cursor.isNone then 0 else 1) =
          q.page_size + 1 := by
        rw [hps2, show (if (({ q with cursor := none } : SqlQuery).cursor.isNone = true)
            then (0 : Nat) else 1) = 0 from rfl,
          add64_small q.page_size 1 (by omega), add64_small (q.page_size + 1) 0 (by omega)]
      rw [harith, hsp, hgc2]
      rfl

/-- Witness for C7 (amended): concrete query with the garbage token
`!!!`. -/
theorem invalid_cursor_swallowed_amended_witness :
    SqlQuery.get_cursor { source := "users", projection := [], filter := none, order := none,
                          cursor := some "!!!", page_size := 10 } = none :=
  (invalid_cursor_swallowed_amended { source := "users", projection := [], filter := none,
                                      order := none, cursor := some "!!!", page_size := 10 }
    "!!!" rfl ⟨.base64Decode "!!!", by decide⟩ (by norm_num)).1

/-- Claim C8: `to_sql` renders exactly the spec's template (clause order,
omission of absent clauses, single-space joins, `*` or `", "`-joined
projection), and the concrete Scenario B query renders the expected
text. -/
theorem to_sql_format (q : SqlQuery) (hs : q.source ≠ "") (hp : q.projectionStr ≠ "") :
    q.toSql = toSqlSpecText q ∧
    (q.projection = [] → q.projectionStr = "*") ∧
    (q.projection ≠ [] → q.projectionStr = joinSep ", " q.projection) ∧
    SqlQuery.toSql { source := "users", projection := ["id", "name"],
                     filter := some "id > 10", order := some "id DESC",
                     cursor := some (encode_u64 10), page_size := 10 } =
      "SELECT id, name FROM users WHERE id > 10 ORDER BY id DESC LIMIT 12 OFFSET 10" := by
  refine ⟨?_, ?_, ?_, by decide⟩
  · rw [toSql_split q, sqlPre_eq q hs hp]
    rfl
  · intro h
    unfold SqlQuery.projectionStr
    rw [if_pos h]
  · intro h
    unfold SqlQuery.projectionStr
    rw [if_neg h]

/-- Witness for C8: the Scenario B query satisfies the template. -/
theorem to_sql_format_witness :
    SqlQuery.toSql { source := "users", projection := ["id", "name"],
                     filter := some "id > 10", order := some "id DESC",
                     cursor := some (encode_u64 10), page_size := 10 } =
      toSqlSpecText { source := "users", projection := ["id", "name"],
                      filter := some "id > 10", order := some "id DESC",
                      cursor := some (encode_u64 10), page_size := 10 } :=
  (to_sql_format { source := "users", projection := ["id", "name"],
                   filter := some "id > 10", order := some "id DESC",
                   cursor := some (encode_u64 10), page_size := 10 } (by decide) (by decide)).1

/-- Claim C4: the cursor codec round-trips every `u64` offset, and
encoding is total (it returns a token for every offset). -/
theorem decode_encode_roundtrip (o : Nat) (h : o < 2 ^ 64) :
    decode_u64 (encode_u64 o) = .ok o :=
  decode_encode_aux o h

/-- Witness for C4: offset 10 round-trips. -/
theorem decode_encode_roundtrip_witness : decode_u64 (encode_u64 10) = .ok 10 :=
  decode_encode_roundtrip 10 (by norm_num)

/-- Counterexample for C9: the 48-character token decoding to the 36
digit bytes `000...001` is valid base64, decodes to valid UTF-8 text that
is even a valid `u64` (the value 1), yet `decode_u64` reports
`Base64Decode`: the decoded length exceeds the 32-byte buffer, so
`decode_slice` fails before any further classification. -/
theorem decode_buffer_overflow_counterexample :
    b64DecodeFull ("MDAwMDAwMDAwMDAwMDAwMDAwMDAwMDAwMDAwMDAwMDAwMDAx").data =
      some (List.replicate 35 48 ++ [49]) ∧
    utf8Decode (List.replicate 35 48 ++ [49]) = some (List.replicate 35 '0' ++ ['1']) ∧
    parseU64 (String.mk (List.replicate 35 '0' ++ ['1'])) = some 1 ∧
    decode_u64 "MDAwMDAwMDAwMDAwMDAwMDAwMDAwMDAwMDAwMDAwMDAwMDAx" =
      .error (.base64Decode "MDAwMDAwMDAwMDAwMDAwMDAwMDAwMDAwMDAwMDAwMDAwMDAx") := by decide

/-- Claim C9 as amended: `decode_u64` classifies failures as follows: a
token whose conservative decoded-size estimate exceeds the 32-byte buffer
— which happens exactly when the token is longer than 40 characters (the
last conjunct proves the equivalence; at lengths 42 and 43 the estimate
rejects tokens whose actual decoded size, 31 or 32 bytes, would fit, and
length 41 is `≡ 1 (mod 4)`, invalid anyway) — yields `Base64Decode`, as
does any token that fails base64 decoding proper (bad character, length
`≡ 1 (mod 4)`, non-zero trailing bits); otherwise undecodable-as-UTF-8
bytes yield `InvalidUtf8`; otherwise text that is not a valid `u64`
decimal yields `InvalidNumber` recording the text; any other token
decodes successfully. -/
theorem decode_error_classification_amended (s : String) :
    (b64SizeEstimate s.length > 32 → decode_u64 s = .error (.base64Decode s)) ∧
    (b64SizeEstimate s.length ≤ 32 → b64DecodeFull s.data = none →
      decode_u64 s = .error (.base64Decode s)) ∧
    (∀ bytes, b64SizeEstimate s.length ≤ 32 → b64DecodeFull s.data = some bytes →
      utf8Decode bytes = none → decode_u64 s = .error .invalidUtf8) ∧
    (∀ bytes cs, b64SizeEstimate s.length ≤ 32 → b64DecodeFull s.data = some bytes →
      utf8Decode bytes = some cs → parseU64 (String.mk cs) = none →
      decode_u64 s = .error (.invalidNumber (String.mk cs))) ∧
    (∀ bytes cs v, b64SizeEstimate s.length ≤ 32 → b64DecodeFull s.data = some bytes →
      utf8Decode bytes = some cs → parseU64 (String.mk cs) = some v →
      decode_u64 s = .ok v) ∧
    (b64SizeEstimate s.length > 32 ↔ 40 < s.length) := by
  refine ⟨?_, ?_, ?_, ?_, ?_, ?_⟩
  · intro hbig
    unfold decode_u64 b64_decode
    rw [if_pos hbig]
  · intro hsmall hnone
    unfold decode_u64 b64_decode
    rw [if_neg (by omega), hnone]
  · intro bytes hsmall hsome hu
    have hbd : b64_decode s = .ok bytes := by
      unfold b64_decode
      rw [if_neg (by omega), hsome]
    unfold decode_u64
    rw [hbd]
    show (match utf8Decode bytes with
      | none => (.error .invalidUtf8 : Except Error Nat)
      | some cs =>
        match parseU64 (String.mk cs) with
        | some v => .ok v
        | none => .error (.invalidNumber (String.mk cs))) = .error .invalidUtf8
    rw [hu]
  · intro bytes cs hsmall hsome hu hp
    have hbd : b64_decode s = .ok bytes := by
      unfold b64_decode
      rw [if_neg (by omega), hsome]
    unfold decode_u64
    rw [hbd]
    show (match utf8Decode bytes with
      | none => (.error .invalidUtf8 : Except Error Nat)
      | some cs =>
        match parseU64 (String.mk cs) with
        | some v => .ok v
        | none => .error (.invalidNumber (String.mk cs))) =
      .error (.invalidNumber (String.mk cs))
    rw [hu]
    show (match parseU64 (String.mk cs) with
      | some v => (.ok v : Except Error Nat)
      | none => .error (.invalidNumber (String.mk cs))) = .error (.invalidNumber (String.mk cs))
    rw [hp]
  · intro bytes cs v hsmall hsome hu hp
    have hbd : b64_decode s = .ok bytes := by
      unfold b64_decode
      rw [if_neg (by omega), hsome]
    unfold decode_u64
    rw [hbd]
    show (match utf8Decode bytes with
      | none => (.error .invalidUtf8 : Except Error Nat)
      | some cs =>
        match parseU64 (String.mk cs) with
        | some v => .ok v
        | none => .error (.invalidNumber (String.mk cs))) = .ok v
    rw [hu]
    show (match parseU64 (String.mk cs) with
      | some v => (.ok v : Except Error Nat)
      | none => .error (.invalidNumber (String.mk cs))) = .ok v
    rw [hp]
  · unfold b64SizeEstimate
    by_cases hz : s.length % 4 = 0
    · rw [if_pos hz]
      omega
    · rw [if_neg hz]
      omega

/-- Witness for C9 (amended): the token `MTA` is within the buffer bound,
decodes to the digit bytes of `10`, and succeeds. -/
theorem decode_error_classification_amended_witness : decode_u64 "MTA" = .ok 10 :=
  (decode_error_classification_amended "MTA").2.2.2.2.1 [49, 48] ['1', '0'] 10
    (by decide) (by decide) (by decide) (by decide)

/-- Claim C10: whenever a pager has a next offset, `next_page` produces a
query whose freshly encoded cursor token decodes back to exactly that
offset, with the page size preserved. -/
theorem next_page_cursor_roundtrip (q : SqlQuery) (p : Pager) (n : Nat)
    (hn : p.next = some n) (h64 : n < 2 ^ 64) :
    ∃ q2, q.next_page p = some q2 ∧ q2.get_cursor = some n ∧ q2.page_size = q.page_size := by
  unfold SqlQuery.next_page PageInfo.next_page
  rw [hn]
  refine ⟨_, rfl, ?_, rfl⟩
  show SqlQuery.get_cursor
    { source := q.source, projection := q.projection, filter := q.filter, order := q.order,
      cursor := (some n).map (fun c => encode_u64 c), page_size := q.pageInfo.page_size } =
    some n
  unfold SqlQuery.get_cursor
  show (decode_u64 (encode_u64 n)).toOption = some n
  rw [decode_encode_aux n h64]
  rfl

/-- Witness for C10: from a pager with `next = 10`, the new query's cursor
decodes back to 10. -/
theorem next_page_cursor_roundtrip_witness :
    ∃ q2, SqlQuery.next_page { source := "users", projection := [], filter := none,
                               order := none, cursor := none, page_size := 10 }
        { prev := none, next := some 10, total := none } = some q2 ∧
      q2.get_cursor = some 10 ∧ q2.page_size = 10 :=
  next_page_cursor_roundtrip { source := "users", projection := [], filter := none,
                               order := none, cursor := none, page_size := 10 }
    { prev := none, next := some 10, total := none } 10 rfl (by norm_num)

end DataPager
